import Mathlib

/-!
Verification of the `contactSubmissions` update authorization logic of
`firestore.rules` (collection rule
`allow update: if isValidOnboardingUpdate(resource, request) || isAdminUpdate(request)`).

The rules language is CEL-based: every expression over the existing document
(`resource.data`) and the incoming write (`request.resource.data`) evaluates to
a boolean or to an error (for instance, accessing a missing field).  `&&` and
`||` are error-absorbing (`false && error = false`, `true || error = true`),
and a write is allowed only when the rule expression evaluates to `true`;
both `false` and an error deny it.  We model this with `Option Bool`
(`none` = evaluation error) and absorbing connectives.

Documents are association lists of field name to value.  Firestore values are
modelled one nesting level deep (a primitive, or a map of primitives), which
covers everything the rules inspect (`notificationPreferences` is the only
nested value read, and only its first level is read).  `==` between values of
different runtime types is modelled as `false`; in every place the rules
compare possibly non-string data to a string literal, both the `false` and the
error reading would deny the write, so the choice does not affect any result
below.
-/

/-- Primitive Firestore field values: strings, booleans, integers and opaque
timestamps. -/
inductive FsPrim where
  | str : String → FsPrim
  | bool : Bool → FsPrim
  | int : Int → FsPrim
  | timestamp : Nat → FsPrim
deriving DecidableEq, Repr

/-- A Firestore field value: a primitive, or a map of primitives (one nesting
level, which is all the rules inspect). -/
inductive FsValue where
  | prim : FsPrim → FsValue
  | map : List (String × FsPrim) → FsValue
deriving DecidableEq, Repr

/-- Shorthand for a string value. -/
def vs (s : String) : FsValue := FsValue.prim (FsPrim.str s)

/-- A Firestore document: an association list of field name to value
(`resource.data` / `request.resource.data`). -/
def Doc : Type := List (String × FsValue)

/-- Field access `doc.k`: the value at the first binding of `k`, or an
evaluation error (`none`) when the field is missing. -/
def getF (d : Doc) (k : String) : Option FsValue :=
  match d with
  | [] => none
  | p :: rest => if p.1 = k then some p.2 else getF rest k

/-- `doc.keys()`. -/
def keysOf (d : Doc) : List String := d.map Prod.fst

/-- `doc.keys().hasAll(ks)`: every listed key occurs in the document. -/
def hasAll (d : Doc) (ks : List String) : Bool :=
  ks.all (fun k => decide (k ∈ keysOf d))

/-- `doc.keys().hasAny(ks)`: some listed key occurs in the document. -/
def hasAny (d : Doc) (ks : List String) : Bool :=
  ks.any (fun k => decide (k ∈ keysOf d))

/-- `doc.keys().hasOnly(ks)`: every key of the document is listed. -/
def hasOnly (d : Doc) (ks : List String) : Bool :=
  (keysOf d).all (fun k => decide (k ∈ ks))

/-- CEL conjunction: error-absorbing (`false && error = false`). -/
def fsAnd : Option Bool → Option Bool → Option Bool
  | some false, _ => some false
  | _, some false => some false
  | some true, some true => some true
  | _, _ => none

/-- CEL disjunction: error-absorbing (`true || error = true`). -/
def fsOr : Option Bool → Option Bool → Option Bool
  | some true, _ => some true
  | _, some true => some true
  | some false, some false => some false
  | _, _ => none

/-- CEL negation; an error stays an error. -/
def fsNot : Option Bool → Option Bool
  | some b => some (!b)
  | none => none

/-- CEL `==` between two (possibly erroring) value expressions. -/
def fsEq (a b : Option FsValue) : Option Bool :=
  match a, b with
  | some x, some y => some (decide (x = y))
  | _, _ => none

/-- `e is string` on a (possibly erroring) value expression. -/
def fsIsString : Option FsValue → Option Bool
  | some (FsValue.prim (FsPrim.str _)) => some true
  | some _ => some false
  | none => none

/-- `e.size()` restricted to strings (the only use the rules make of it under
an `is string` guard); anything else is an error. -/
def fsStrSize : Option FsValue → Option Nat
  | some (FsValue.prim (FsPrim.str s)) => some s.length
  | _ => none

/-- `e >= n` on a (possibly erroring) integer expression. -/
def fsGe (a : Option Nat) (n : Nat) : Option Bool :=
  a.map (fun m => decide (n ≤ m))

/-- `e > n` on a (possibly erroring) integer expression. -/
def fsGt (a : Option Nat) (n : Nat) : Option Bool :=
  a.map (fun m => decide (n < m))

/-- Regex pieces occurring in the rules' two linkedin patterns: a literal, `.`
(any one character), `.*` (any sequence). -/
inductive RePiece where
  | lit : String → RePiece
  | dot : RePiece
  | star : RePiece
deriving DecidableEq, Repr

/-- Full-string matcher for a sequence of `RePiece`s, with explicit fuel
(each step shortens pattern-length + input-length, so
`input.length + pattern.length + 1` fuel is always enough). -/
def reMatchFuel : Nat → List RePiece → List Char → Bool
  | 0, _, _ => false
  | _ + 1, [], cs => cs.isEmpty
  | fuel + 1, RePiece.lit s :: ps, cs =>
      List.isPrefixOf s.toList cs && reMatchFuel fuel ps (cs.drop s.length)
  | fuel + 1, RePiece.dot :: ps, cs =>
      match cs with
      | [] => false
      | _ :: cs2 => reMatchFuel fuel ps cs2
  | fuel + 1, RePiece.star :: ps, cs =>
      reMatchFuel fuel ps cs ||
        (match cs with
         | [] => false
         | _ :: cs2 => reMatchFuel fuel (RePiece.star :: ps) cs2)

/-- `s.matches(pattern)`: RE2 full-string match. -/
def reMatches (ps : List RePiece) (s : String) : Bool :=
  reMatchFuel (s.toList.length + ps.length + 1) ps s.toList

/-- The pattern `https://.*linkedin.com/.*` of `isValidOnboardingData`. -/
def linkedinPat1 : List RePiece :=
  [RePiece.lit "https://", RePiece.star, RePiece.lit "linkedin",
   RePiece.dot, RePiece.lit "com/", RePiece.star]

/-- The pattern `https://.*linkedin.com/in/.*` of `isValidOnboardingData`. -/
def linkedinPat2 : List RePiece :=
  [RePiece.lit "https://", RePiece.star, RePiece.lit "linkedin",
   RePiece.dot, RePiece.lit "com/in/", RePiece.star]

/-- `e.matches(pattern)` on a (possibly erroring) value expression; calling
`matches` on a non-string is an error. -/
def fsMatches (a : Option FsValue) (ps : List RePiece) : Option Bool :=
  match a with
  | some (FsValue.prim (FsPrim.str s)) => some (reMatches ps s)
  | _ => none

/-- Keys of a map value (`e.keys()` on a nested map); error on a non-map. -/
def mapKeysOf : Option FsValue → Option (List String)
  | some (FsValue.map l) => some (l.map Prod.fst)
  | _ => none

/-- `e.keys().hasAll(ks)` for a nested map expression. -/
def fsMapHasAll (a : Option FsValue) (ks : List String) : Option Bool :=
  match a with
  | some (FsValue.map l) => some (ks.all (fun k => decide (k ∈ l.map Prod.fst)))
  | _ => none

/-- First binding of a key in a nested map. -/
def mapFind (l : List (String × FsPrim)) (k : String) : Option FsPrim :=
  match l with
  | [] => none
  | p :: rest => if p.1 = k then some p.2 else mapFind rest k

/-- Field access on a nested map value; missing field or non-map is an error. -/
def mapGet (a : Option FsValue) (k : String) : Option FsPrim :=
  match a with
  | some (FsValue.map l) => mapFind l k
  | _ => none

/-- `e is bool` on a (possibly erroring) nested-map field. -/
def fsIsBool : Option FsPrim → Option Bool
  | some (FsPrim.bool _) => some true
  | some _ => some false
  | none => none

/-- The allow-list of `isOnboardingFieldsOnly` (`firestore.rules` lines
57-63), verbatim. -/
def allowedFields : List String :=
  ["name", "email", "status", "temporaryUserId", "temporaryPassword",
   "firstName", "lastName", "phone", "bio", "linkedin",
   "notificationPreferences", "onboardingProgress", "onboardingCompleted",
   "onboardingCompletedAt", "passwordUpdatedAt", "profileUpdatedAt",
   "submittedAt", "campusStatus", "companyName", "idea"]

/-- `isOnboardingFieldsOnly(incomingDoc)` (`firestore.rules` lines 55-67):
`incomingDoc.keys().hasOnly(allowedFields)`. -/
def isOnboardingFieldsOnly (incomingDoc : Doc) : Option Bool :=
  some (hasOnly incomingDoc allowedFields)

/-- The `passwordValid` let-binding of `isValidOnboardingData`
(`firestore.rules` lines 71-73). -/
def passwordValid (incomingDoc : Doc) : Option Bool :=
  fsOr (fsNot (some (hasAny incomingDoc ["temporaryPassword"])))
    (fsAnd (fsIsString (getF incomingDoc "temporaryPassword"))
      (fsGe (fsStrSize (getF incomingDoc "temporaryPassword")) 6))

/-- The `profileValid` let-binding of `isValidOnboardingData`
(`firestore.rules` lines 76-80). -/
def profileValid (incomingDoc : Doc) : Option Bool :=
  fsOr (fsNot (some (hasAny incomingDoc ["firstName", "lastName"])))
    (fsAnd
      (fsAnd
        (fsAnd (fsIsString (getF incomingDoc "firstName"))
          (fsGt (fsStrSize (getF incomingDoc "firstName")) 0))
        (fsIsString (getF incomingDoc "lastName")))
      (fsGt (fsStrSize (getF incomingDoc "lastName")) 0))

/-- The `linkedinValid` let-binding of `isValidOnboardingData`
(`firestore.rules` lines 83-86). -/
def linkedinValid (incomingDoc : Doc) : Option Bool :=
  fsOr
    (fsOr
      (fsOr (fsNot (some (hasAny incomingDoc ["linkedin"])))
        (fsEq (getF incomingDoc "linkedin") (some (vs ""))))
      (fsMatches (getF incomingDoc "linkedin") linkedinPat1))
    (fsMatches (getF incomingDoc "linkedin") linkedinPat2)

/-- The `notificationValid` let-binding of `isValidOnboardingData`
(`firestore.rules` lines 89-91). -/
def notificationValid (incomingDoc : Doc) : Option Bool :=
  fsOr (fsNot (some (hasAny incomingDoc ["notificationPreferences"])))
    (fsAnd
      (fsMapHasAll (getF incomingDoc "notificationPreferences")
        ["emailNotifications"])
      (fsIsBool (mapGet (getF incomingDoc "notificationPreferences")
        "emailNotifications")))

/-- `isValidOnboardingData(incomingDoc)` (`firestore.rules` lines 69-94):
the conjunction of the four let-bound validity checks. -/
def isValidOnboardingData (incomingDoc : Doc) : Option Bool :=
  fsAnd
    (fsAnd (fsAnd (passwordValid incomingDoc) (profileValid incomingDoc))
      (linkedinValid incomingDoc))
    (notificationValid incomingDoc)

/-- `isValidOnboardingUpdate(existingData, incomingRequest)`
(`firestore.rules` lines 38-53), with `existingDoc = existingData.data` and
`incomingDoc = incomingRequest.resource.data` passed directly. -/
def isValidOnboardingUpdate (existingDoc incomingDoc : Doc) : Option Bool :=
  fsAnd
    (fsAnd
      (fsAnd
        (fsAnd
          (fsAnd (fsEq (getF existingDoc "status") (some (vs "accepted")))
            (some (hasAll incomingDoc ["name", "email", "status"])))
          (fsEq (getF incomingDoc "email") (getF existingDoc "email")))
        (fsEq (getF incomingDoc "status") (getF existingDoc "status")))
      (isOnboardingFieldsOnly incomingDoc))
    (isValidOnboardingData incomingDoc)

/-- The `isStatusUpdate` let-binding of `isAdminUpdate`
(`firestore.rules` lines 99-101). -/
def isStatusUpdate (incomingDoc : Doc) : Option Bool :=
  some (hasAny incomingDoc ["status", "processedByAdminAt"])

/-- The `isCredentialAssignment` let-binding of `isAdminUpdate`
(`firestore.rules` lines 103-105). -/
def isCredentialAssignment (incomingDoc : Doc) : Option Bool :=
  fsAnd (some (hasAny incomingDoc ["temporaryUserId", "temporaryPassword"]))
    (fsEq (getF incomingDoc "status") (some (vs "accepted")))

/-- `isAdminUpdate(incomingRequest)` (`firestore.rules` lines 96-108), with
`incomingDoc = incomingRequest.resource.data` passed directly. -/
def isAdminUpdate (incomingDoc : Doc) : Option Bool :=
  fsOr (isStatusUpdate incomingDoc) (isCredentialAssignment incomingDoc)

/-- The `contactSubmissions` update gate (`firestore.rules` line 25):
`allow update: if isValidOnboardingUpdate(resource, request) ||
isAdminUpdate(request)`.  The write is allowed exactly when the expression
evaluates to `true` (an error denies). -/
def updateAllowed (existingDoc incomingDoc : Doc) : Bool :=
  decide (fsOr (isValidOnboardingUpdate existingDoc incomingDoc)
    (isAdminUpdate incomingDoc) = some true)

/-- Modelled from the spec: the document store's transactional application of
a write (section 5: "the store provides at-most-one-evaluation-per-write and
transactional all-or-nothing field application").  The store itself is
external to the repository; an allowed write replaces the stored document
with the incoming resource data, a denied write leaves it untouched. -/
def applyUpdate (existingDoc incomingDoc : Doc) : Doc :=
  if updateAllowed existingDoc incomingDoc then incomingDoc else existingDoc

-- Sanity checks of the embedding on concrete documents.

example :
    updateAllowed [("status", vs "accepted"), ("email", vs "a@b.c")]
      [("name", vs "Jane"), ("email", vs "a@b.c"),
       ("status", vs "accepted")] = true := by decide

example :
    isValidOnboardingUpdate [("status", vs "pending"), ("email", vs "a@b.c")]
      [("name", vs "Jane"), ("email", vs "a@b.c"),
       ("status", vs "pending")] = some false := by decide

example : reMatches linkedinPat1 "https://www.linkedin.com/in/jdoe" = true := by
  decide

example : reMatches linkedinPat1 "https://example.com" = false := by decide

example : reMatches linkedinPat2 "https://example.com" = false := by decide

/-! ### Basic lemmas about the CEL connectives and document accessors -/

theorem fsAnd_eq_true (a b : Option Bool) :
    fsAnd a b = some true ↔ a = some true ∧ b = some true := by
  rcases a with _ | a
  · rcases b with _ | b
    · simp [fsAnd]
    · cases b <;> simp [fsAnd]
  · rcases b with _ | b
    · cases a <;> simp [fsAnd]
    · cases a <;> cases b <;> simp [fsAnd]

theorem fsOr_eq_true (a b : Option Bool) :
    fsOr a b = some true ↔ a = some true ∨ b = some true := by
  rcases a with _ | a
  · rcases b with _ | b
    · simp [fsOr]
    · cases b <;> simp [fsOr]
  · rcases b with _ | b
    · cases a <;> simp [fsOr]
    · cases a <;> cases b <;> simp [fsOr]

theorem fsEq_eq_true (a b : Option FsValue) :
    fsEq a b = some true ↔ ∃ v, a = some v ∧ b = some v := by
  rcases a with _ | x
  · simp [fsEq]
  · rcases b with _ | y
    · simp [fsEq]
    · simp only [fsEq]
      constructor
      · intro h
        refine ⟨x, rfl, ?_⟩
        have hx : decide (x = y) = true := by
          have := Option.some.inj h
          exact this
        have := of_decide_eq_true hx
        simp [this]
      · rintro ⟨v, hv1, hv2⟩
        have hx : x = y := by
          rw [Option.some.inj hv1.symm] at hv2
          exact (Option.some.inj hv2).symm ▸ rfl
        simp [hx]

theorem getF_isSome_iff (d : Doc) (k : String) :
    (getF d k).isSome = true ↔ k ∈ keysOf d := by
  induction d with
  | nil => simp [getF, keysOf]
  | cons p rest ih =>
      by_cases h : p.1 = k
      · simp [getF, keysOf, h]
      · have h2 : ¬(k = p.1) := fun hk => h hk.symm
        simp [getF, keysOf, h, h2, ih]

theorem mem_of_getF_eq_some {d : Doc} {k : String} {v : FsValue}
    (h : getF d k = some v) : k ∈ keysOf d := by
  rw [← getF_isSome_iff, h]
  rfl

theorem getF_eq_some_of_mem {d : Doc} {k : String} (h : k ∈ keysOf d) :
    ∃ v, getF d k = some v := by
  rw [← getF_isSome_iff] at h
  exact Option.isSome_iff_exists.mp h

theorem hasAny_singleton (d : Doc) (k : String) :
    hasAny d [k] = true ↔ k ∈ keysOf d := by
  simp [hasAny]

theorem hasAny_pair (d : Doc) (k1 k2 : String) :
    hasAny d [k1, k2] = true ↔ k1 ∈ keysOf d ∨ k2 ∈ keysOf d := by
  simp [hasAny]

theorem hasAll_triple (d : Doc) (k1 k2 k3 : String) :
    hasAll d [k1, k2, k3] = true ↔
      k1 ∈ keysOf d ∧ k2 ∈ keysOf d ∧ k3 ∈ keysOf d := by
  simp [hasAll]

theorem hasOnly_iff (d : Doc) (ks : List String) :
    hasOnly d ks = true ↔ ∀ k ∈ keysOf d, k ∈ ks := by
  simp [hasOnly]

theorem getF_eq_none_of_not_mem {d : Doc} {k : String} (h : k ∉ keysOf d) :
    getF d k = none := by
  rcases he : getF d k with _ | v
  · rfl
  · exact absurd (mem_of_getF_eq_some he) h

theorem fsNot_eq_true (a : Option Bool) :
    fsNot a = some true ↔ a = some false := by
  rcases a with _ | a
  · simp [fsNot]
  · cases a <;> simp [fsNot]

theorem fsIsString_eq_true (a : Option FsValue) :
    fsIsString a = some true ↔ ∃ s, a = some (vs s) := by
  rcases a with _ | v
  · simp [fsIsString]
  · rcases v with p | l
    · rcases p with s | b | i | t <;> simp [fsIsString, vs]
    · simp [fsIsString, vs]

theorem fsGe_strSize_eq_true (a : Option FsValue) (n : Nat) :
    fsGe (fsStrSize a) n = some true ↔
      ∃ s, a = some (vs s) ∧ n ≤ s.length := by
  rcases a with _ | v
  · simp [fsStrSize, fsGe]
  · rcases v with p | l
    · rcases p with s | b | i | t <;> simp [fsStrSize, fsGe, vs]
    · simp [fsStrSize, fsGe, vs]

theorem fsGt_strSize_eq_true (a : Option FsValue) (n : Nat) :
    fsGt (fsStrSize a) n = some true ↔
      ∃ s, a = some (vs s) ∧ n < s.length := by
  rcases a with _ | v
  · simp [fsStrSize, fsGt]
  · rcases v with p | l
    · rcases p with s | b | i | t <;> simp [fsStrSize, fsGt, vs]
    · simp [fsStrSize, fsGt, vs]

theorem fsMatches_eq_true (a : Option FsValue) (ps : List RePiece) :
    fsMatches a ps = some true ↔
      ∃ s, a = some (vs s) ∧ reMatches ps s = true := by
  rcases a with _ | v
  · simp [fsMatches]
  · rcases v with p | l
    · rcases p with s | b | i | t <;> simp [fsMatches, vs]
    · simp [fsMatches, vs]

theorem fsMapHasAll_single_eq_true (a : Option FsValue) (k : String) :
    fsMapHasAll a [k] = some true ↔
      ∃ l, a = some (FsValue.map l) ∧ k ∈ l.map Prod.fst := by
  rcases a with _ | v
  · simp [fsMapHasAll]
  · rcases v with p | l
    · simp [fsMapHasAll]
    · simp [fsMapHasAll]

theorem fsIsBool_eq_true (a : Option FsPrim) :
    fsIsBool a = some true ↔ ∃ b, a = some (FsPrim.bool b) := by
  rcases a with _ | p
  · simp [fsIsBool]
  · rcases p with s | b | i | t <;> simp [fsIsBool]

theorem fsEq_some_right (a : Option FsValue) (v : FsValue) :
    fsEq a (some v) = some true ↔ a = some v := by
  rw [fsEq_eq_true]
  constructor
  · rintro ⟨w, hw1, hw2⟩
    rw [hw1, Option.some.inj hw2]
  · intro h
    exact ⟨v, h, rfl⟩

/-! ### Characterizations of the four `isValidOnboardingData` checks -/

theorem passwordValid_eq_true (inc : Doc) :
    passwordValid inc = some true ↔
      ("temporaryPassword" ∈ keysOf inc →
        ∃ s, getF inc "temporaryPassword" = some (vs s) ∧ 6 ≤ s.length) := by
  rw [passwordValid, fsOr_eq_true, fsNot_eq_true, fsAnd_eq_true,
    fsIsString_eq_true, fsGe_strSize_eq_true]
  constructor
  · rintro (h | ⟨_, s, hs, hlen⟩)
    · intro hmem
      have hh := Option.some.inj h
      have := (hasAny_singleton inc "temporaryPassword").mpr hmem
      rw [hh] at this
      exact absurd this (by simp)
    · exact fun _ => ⟨s, hs, hlen⟩
  · intro h
    by_cases hmem : "temporaryPassword" ∈ keysOf inc
    · rcases h hmem with ⟨s, hs, hlen⟩
      exact Or.inr ⟨⟨s, hs⟩, s, hs, hlen⟩
    · exact Or.inl (by simp [hasAny, hmem])

theorem profileValid_eq_true (inc : Doc) :
    profileValid inc = some true ↔
      (("firstName" ∈ keysOf inc ∨ "lastName" ∈ keysOf inc) →
        (∃ s, getF inc "firstName" = some (vs s) ∧ 0 < s.length) ∧
        (∃ s, getF inc "lastName" = some (vs s) ∧ 0 < s.length)) := by
  rw [profileValid, fsOr_eq_true, fsNot_eq_true, fsAnd_eq_true, fsAnd_eq_true,
    fsAnd_eq_true, fsIsString_eq_true, fsIsString_eq_true,
    fsGt_strSize_eq_true, fsGt_strSize_eq_true]
  constructor
  · rintro (h | ⟨⟨⟨_, hB⟩, _⟩, hD⟩)
    · intro hmem
      have hh := Option.some.inj h
      have := (hasAny_pair inc "firstName" "lastName").mpr hmem
      rw [hh] at this
      exact absurd this (by simp)
    · exact fun _ => ⟨hB, hD⟩
  · intro h
    by_cases hmem : "firstName" ∈ keysOf inc ∨ "lastName" ∈ keysOf inc
    · rcases h hmem with ⟨⟨s1, h1, hl1⟩, s2, h2, hl2⟩
      exact Or.inr ⟨⟨⟨⟨s1, h1⟩, s1, h1, hl1⟩, s2, h2⟩, s2, h2, hl2⟩
    · rcases not_or.mp hmem with ⟨hf, hl⟩
      exact Or.inl (by simp [hasAny, hf, hl])

theorem linkedinValid_eq_true (inc : Doc) :
    linkedinValid inc = some true ↔
      ("linkedin" ∈ keysOf inc →
        getF inc "linkedin" = some (vs "") ∨
        ∃ s, getF inc "linkedin" = some (vs s) ∧
          (reMatches linkedinPat1 s = true ∨
           reMatches linkedinPat2 s = true)) := by
  rw [linkedinValid, fsOr_eq_true, fsOr_eq_true, fsOr_eq_true, fsNot_eq_true,
    fsEq_some_right, fsMatches_eq_true, fsMatches_eq_true]
  constructor
  · rintro (((h | hB) | ⟨s, hs, hm⟩) | ⟨s, hs, hm⟩)
    · intro hmem
      have hh := Option.some.inj h
      have := (hasAny_singleton inc "linkedin").mpr hmem
      rw [hh] at this
      exact absurd this (by simp)
    · exact fun _ => Or.inl hB
    · exact fun _ => Or.inr ⟨s, hs, Or.inl hm⟩
    · exact fun _ => Or.inr ⟨s, hs, Or.inr hm⟩
  · intro h
    by_cases hmem : "linkedin" ∈ keysOf inc
    · rcases h hmem with hB | ⟨s, hs, hm | hm⟩
      · exact Or.inl (Or.inl (Or.inr hB))
      · exact Or.inl (Or.inr ⟨s, hs, hm⟩)
      · exact Or.inr ⟨s, hs, hm⟩
    · exact Or.inl (Or.inl (Or.inl (by simp [hasAny, hmem])))

theorem mapFind_isSome_iff (l : List (String × FsPrim)) (k : String) :
    (mapFind l k).isSome = true ↔ k ∈ l.map Prod.fst := by
  induction l with
  | nil => simp [mapFind]
  | cons p rest ih =>
      by_cases h : p.1 = k
      · simp [mapFind, h]
      · have h2 : ¬(k = p.1) := fun hk => h hk.symm
        simp [mapFind, h, h2, ih]

theorem notificationValid_eq_true (inc : Doc) :
    notificationValid inc = some true ↔
      ("notificationPreferences" ∈ keysOf inc →
        ∃ l, getF inc "notificationPreferences" = some (FsValue.map l) ∧
          ∃ b, mapFind l "emailNotifications" = some (FsPrim.bool b)) := by
  rw [notificationValid, fsOr_eq_true, fsNot_eq_true, fsAnd_eq_true,
    fsMapHasAll_single_eq_true, fsIsBool_eq_true]
  constructor
  · rintro (h | ⟨⟨l, hl, _⟩, b, hb⟩)
    · intro hmem
      have hh := Option.some.inj h
      have := (hasAny_singleton inc "notificationPreferences").mpr hmem
      rw [hh] at this
      exact absurd this (by simp)
    · intro _
      refine ⟨l, hl, b, ?_⟩
      rw [hl] at hb
      simpa [mapGet] using hb
  · intro h
    by_cases hmem : "notificationPreferences" ∈ keysOf inc
    · rcases h hmem with ⟨l, hl, b, hb⟩
      refine Or.inr ⟨⟨l, hl, ?_⟩, b, ?_⟩
      · rw [← mapFind_isSome_iff, hb]
        rfl
      · rw [hl]
        simpa [mapGet] using hb
    · exact Or.inl (by simp [hasAny, hmem])

/-! ### Master characterization of `isValidOnboardingUpdate` -/

theorem isValidOnboardingUpdate_eq_true (ex inc : Doc) :
    isValidOnboardingUpdate ex inc = some true ↔
      (((((getF ex "status" = some (vs "accepted") ∧
            hasAll inc ["name", "email", "status"] = true) ∧
           (∃ v, getF inc "email" = some v ∧ getF ex "email" = some v)) ∧
          (∃ v, getF inc "status" = some v ∧ getF ex "status" = some v)) ∧
         hasOnly inc allowedFields = true) ∧
        ((("temporaryPassword" ∈ keysOf inc →
            ∃ s, getF inc "temporaryPassword" = some (vs s) ∧ 6 ≤ s.length) ∧
          (("firstName" ∈ keysOf inc ∨ "lastName" ∈ keysOf inc) →
            (∃ s, getF inc "firstName" = some (vs s) ∧ 0 < s.length) ∧
            (∃ s, getF inc "lastName" = some (vs s) ∧ 0 < s.length))) ∧
         ("linkedin" ∈ keysOf inc →
           getF inc "linkedin" = some (vs "") ∨
           ∃ s, getF inc "linkedin" = some (vs s) ∧
             (reMatches linkedinPat1 s = true ∨
              reMatches linkedinPat2 s = true))) ∧
        ("notificationPreferences" ∈ keysOf inc →
          ∃ l, getF inc "notificationPreferences" = some (FsValue.map l) ∧
            ∃ b, mapFind l "emailNotifications" = some (FsPrim.bool b))) := by
  rw [isValidOnboardingUpdate, fsAnd_eq_true, fsAnd_eq_true, fsAnd_eq_true,
    fsAnd_eq_true, fsAnd_eq_true, fsEq_some_right, fsEq_eq_true, fsEq_eq_true,
    isOnboardingFieldsOnly, isValidOnboardingData, fsAnd_eq_true,
    fsAnd_eq_true, fsAnd_eq_true, passwordValid_eq_true, profileValid_eq_true,
    linkedinValid_eq_true, notificationValid_eq_true]
  simp only [Option.some.injEq]

/-- The spec's onboarding contract, stated in the spec's words (spec.md
section 4.1, the condition list of claim C1): existing `status` is
`accepted`; the incoming field set lies inside the allow-list; incoming
`email` and `status` equal the existing document's values; a present
`temporaryPassword` is a string of length at least 6; if `firstName` or
`lastName` is present both are non-empty strings; a present `linkedin` is
empty or matches one of the two fixed linkedin patterns; a present
`notificationPreferences` contains a boolean `emailNotifications` key. -/
def OnboardingContractOk (ex inc : Doc) : Prop :=
  getF ex "status" = some (vs "accepted") ∧
  (∀ k ∈ keysOf inc, k ∈ allowedFields) ∧
  (∃ v, getF inc "email" = some v ∧ getF ex "email" = some v) ∧
  (∃ v, getF inc "status" = some v ∧ getF ex "status" = some v) ∧
  ("temporaryPassword" ∈ keysOf inc →
    ∃ s, getF inc "temporaryPassword" = some (vs s) ∧ 6 ≤ s.length) ∧
  (("firstName" ∈ keysOf inc ∨ "lastName" ∈ keysOf inc) →
    (∃ s, getF inc "firstName" = some (vs s) ∧ 0 < s.length) ∧
    (∃ s, getF inc "lastName" = some (vs s) ∧ 0 < s.length)) ∧
  ("linkedin" ∈ keysOf inc →
    getF inc "linkedin" = some (vs "") ∨
    ∃ s, getF inc "linkedin" = some (vs s) ∧
      (reMatches linkedinPat1 s = true ∨ reMatches linkedinPat2 s = true)) ∧
  ("notificationPreferences" ∈ keysOf inc →
    ∃ l, getF inc "notificationPreferences" = some (FsValue.map l) ∧
      ∃ b, mapFind l "emailNotifications" = some (FsPrim.bool b))

/-- Existing document for the C1 counterexample: an accepted submission. -/
def exC1 : Doc := [("status", vs "accepted"), ("email", vs "a@b.c")]

/-- Incoming write for the C1 counterexample: every condition of the spec's
contract holds, but the field `name` is absent. -/
def incC1 : Doc := [("email", vs "a@b.c"), ("status", vs "accepted")]

/-- C1 (counterexample): at this concrete input every condition listed in the
claim holds, yet `isValidOnboardingUpdate` does not approve the update (the
code additionally demands `incomingDoc.keys().hasAll(['name', 'email',
'status'])`, and `name` is absent), so the claimed equivalence is false. -/
theorem c1_claim_false_at_input :
    OnboardingContractOk exC1 incC1 ∧
      isValidOnboardingUpdate exC1 incC1 ≠ some true := by
  refine ⟨⟨rfl, by decide, ⟨vs "a@b.c", rfl, rfl⟩, ⟨vs "accepted", rfl, rfl⟩,
    fun h => absurd h (by decide), fun h => absurd h (by decide),
    fun h => absurd h (by decide), fun h => absurd h (by decide)⟩, ?_⟩
  decide

/-- C1 (amended): `isValidOnboardingUpdate` approves the update if and only
if the incoming document also contains the field `name` (the code requires
`keys().hasAll(['name', 'email', 'status'])`; presence of `email` and
`status` already follows from the contract's equality conditions) and the
spec's condition list holds: existing status `accepted`, incoming fields
inside the allow-list, `email`/`status` unchanged, and the four per-field
validity requirements. -/
theorem c1_isValidOnboardingUpdate_iff_contract (ex inc : Doc) :
    isValidOnboardingUpdate ex inc = some true ↔
      ("name" ∈ keysOf inc ∧ OnboardingContractOk ex inc) := by
  rw [isValidOnboardingUpdate_eq_true]
  constructor
  · rintro ⟨⟨⟨⟨⟨hA, hB⟩, hC⟩, hD⟩, hE⟩, ⟨⟨hp, hpr⟩, hli⟩, hno⟩
    rcases (hasAll_triple inc "name" "email" "status").mp hB with
      ⟨hn, he2, hs2⟩
    exact ⟨hn, hA, (hasOnly_iff inc allowedFields).mp hE, hC, hD, hp, hpr,
      hli, hno⟩
  · rintro ⟨hn, hA, hE, hC, hD, hp, hpr, hli, hno⟩
    obtain ⟨ve, hce1, hce2⟩ := hC
    obtain ⟨vst, hcs1, hcs2⟩ := hD
    have hB : hasAll inc ["name", "email", "status"] = true :=
      (hasAll_triple inc "name" "email" "status").mpr
        ⟨hn, mem_of_getF_eq_some hce1, mem_of_getF_eq_some hcs1⟩
    exact ⟨⟨⟨⟨⟨hA, hB⟩, ⟨ve, hce1, hce2⟩⟩, ⟨vst, hcs1, hcs2⟩⟩,
      (hasOnly_iff inc allowedFields).mpr hE⟩, ⟨⟨hp, hpr⟩, hli⟩, hno⟩

/-! ### The remaining claims about the update gate -/

theorem isValidOnboardingUpdate_ne_true_of_status {ex inc : Doc}
    (h : getF ex "status" ≠ some (vs "accepted")) :
    isValidOnboardingUpdate ex inc ≠ some true := by
  intro hc
  rw [isValidOnboardingUpdate_eq_true] at hc
  exact h hc.1.1.1.1.1

/-- Existing document for the C2 counterexample: a pending submission. -/
def exC2 : Doc := [("status", vs "pending"), ("email", vs "a@b.c")]

/-- Incoming write for the C2 counterexample: only onboarding allow-list
fields, but it contains `status`, so `isAdminUpdate` approves it. -/
def incC2 : Doc :=
  [("name", vs "Jane"), ("email", vs "a@b.c"), ("status", vs "pending")]

/-- C2 (counterexample): a pending submission receives an update whose field
set lies entirely inside the onboarding allow-list, yet the top-level
`contactSubmissions` update rule approves it (the field set contains
`status`, so the `isAdminUpdate` disjunct fires), so the claimed denial is
false. -/
theorem c2_claim_false_at_input :
    getF exC2 "status" = some (vs "pending") ∧
      getF exC2 "status" ≠ some (vs "accepted") ∧
      hasOnly incC2 allowedFields = true ∧
      updateAllowed exC2 incC2 = true := by
  decide

/-- C2 (amended): for a submission whose status is not `accepted`, an
onboarding-field update is denied by the top-level rule unless it also
qualifies as an admin update (its field set meets
`{status, processedByAdminAt}`, or meets
`{temporaryUserId, temporaryPassword}` with incoming status `accepted`). -/
theorem c2_nonaccepted_update_denied_unless_admin (ex inc : Doc)
    (h1 : getF ex "status" ≠ some (vs "accepted"))
    (h2 : hasOnly inc allowedFields = true)
    (h3 : isAdminUpdate inc ≠ some true) :
    updateAllowed ex inc = false := by
  rw [updateAllowed, decide_eq_false_iff_not]
  intro hor
  rcases (fsOr_eq_true _ _).mp hor with h | h
  · exact isValidOnboardingUpdate_ne_true_of_status h1 h
  · exact h3 h

/-- C2 (witness): the amended theorem applied at a concrete pending
submission and a pure profile-field update. -/
theorem c2_witness :
    updateAllowed [("status", vs "pending"), ("email", vs "a@b.c")]
      [("name", vs "Jo"), ("phone", vs "123")] = false :=
  c2_nonaccepted_update_denied_unless_admin
    [("status", vs "pending"), ("email", vs "a@b.c")]
    [("name", vs "Jo"), ("phone", vs "123")]
    (by decide) (by decide) (by decide)

/-- C3: an incoming update whose field set contains `status` or
`processedByAdminAt` is approved by the top-level `contactSubmissions`
update rule, whatever the existing document and the incoming field values
are (`isStatusUpdate` fires and `isAdminUpdate` short-circuits to true). -/
theorem c3_status_field_always_approved (ex inc : Doc)
    (h : "status" ∈ keysOf inc ∨ "processedByAdminAt" ∈ keysOf inc) :
    updateAllowed ex inc = true := by
  have hs : isStatusUpdate inc = some true := by
    rw [isStatusUpdate]
    have := (hasAny_pair inc "status" "processedByAdminAt").mpr h
    rw [this]
  have ha : isAdminUpdate inc = some true := by
    rw [isAdminUpdate, fsOr_eq_true]
    exact Or.inl hs
  rw [updateAllowed, decide_eq_true_eq, fsOr_eq_true]
  exact Or.inr ha

/-- C3 (witness): the theorem applied to a write that sets `status` to a
value outside the pending/accepted/rejected enum, carries a field outside
the allow-list and a 3-character `temporaryPassword`, against an empty
existing document. -/
theorem c3_witness :
    updateAllowed []
      [("status", vs "garbage"), ("hacked", vs "x"),
       ("temporaryPassword", vs "abc")] = true :=
  c3_status_field_always_approved []
    [("status", vs "garbage"), ("hacked", vs "x"),
     ("temporaryPassword", vs "abc")]
    (by decide)

/-- Existing document for the C4 counterexample: an accepted submission. -/
def exC4 : Doc := [("status", vs "accepted"), ("email", vs "a@b.c")]

/-- Incoming write for the C4 counterexample: it changes `email`, but it
contains `status`, so `isAdminUpdate` approves it. -/
def incC4 : Doc :=
  [("name", vs "Jane"), ("email", vs "x@y.z"), ("status", vs "accepted")]

/-- C4 (counterexample): an accepted submission receives an update whose
incoming `email` differs from the existing one, yet the top-level update
rule approves the write (the field set contains `status`, so the
`isAdminUpdate` disjunct fires), so the claimed unconditional denial is
false. -/
theorem c4_claim_false_at_input :
    getF exC4 "status" = some (vs "accepted") ∧
      getF incC4 "email" ≠ getF exC4 "email" ∧
      updateAllowed exC4 incC4 = true := by
  decide

/-- C4 (amended): for an accepted submission, an update whose incoming
`email` or `status` differs from the existing value is never approved as an
onboarding update (`isValidOnboardingUpdate` does not evaluate to true), so
the top-level rule approves it only when it qualifies as an admin update;
`email` and `status` therefore remain unchanged across every approved
update that is not an admin update. -/
theorem c4_changed_core_field_needs_admin (ex inc : Doc)
    (hacc : getF ex "status" = some (vs "accepted"))
    (hch : getF inc "email" ≠ getF ex "email" ∨
      getF inc "status" ≠ getF ex "status") :
    isValidOnboardingUpdate ex inc ≠ some true ∧
      (updateAllowed ex inc = true → isAdminUpdate inc = some true) := by
  have hv : isValidOnboardingUpdate ex inc ≠ some true := by
    intro hc
    rw [isValidOnboardingUpdate_eq_true] at hc
    obtain ⟨⟨⟨⟨⟨hA, hB⟩, hC⟩, hD⟩, hE⟩, _⟩ := hc
    rcases hch with h | h
    · obtain ⟨v, h1, h2⟩ := hC
      exact h (h1.trans h2.symm)
    · obtain ⟨v, h1, h2⟩ := hD
      exact h (h1.trans h2.symm)
  refine ⟨hv, fun hall => ?_⟩
  rw [updateAllowed, decide_eq_true_eq, fsOr_eq_true] at hall
  rcases hall with h | h
  · exact absurd h hv
  · exact h

/-- C4 (witness): the amended theorem applied at the concrete accepted
submission and email-changing write of the counterexample. -/
theorem c4_witness :
    isValidOnboardingUpdate exC4 incC4 ≠ some true ∧
      (updateAllowed exC4 incC4 = true → isAdminUpdate incC4 = some true) :=
  c4_changed_core_field_needs_admin exC4 incC4 (by decide)
    (Or.inl (by decide))

/-- Existing document for the C5 instance: a pending submission. -/
def exC5 : Doc := [("status", vs "pending"), ("email", vs "e@f.g")]

/-- Incoming write for the C5 instance: credential issuance together with
the acceptance status flip. -/
def incC5 : Doc :=
  [("status", vs "accepted"), ("temporaryUserId", vs "user-1"),
   ("temporaryPassword", vs "secret99")]

/-- C5: `isAdminUpdate` evaluates to true exactly when the incoming field
set meets `{status, processedByAdminAt}`, or meets
`{temporaryUserId, temporaryPassword}` while the incoming `status` equals
`accepted`; and a concrete write setting `status` to `accepted` together
with `temporaryUserId`/`temporaryPassword` passes the top-level update rule
although it is not a valid onboarding update. -/
theorem c5_isAdminUpdate_characterization :
    (∀ inc : Doc, isAdminUpdate inc = some true ↔
      (("status" ∈ keysOf inc ∨ "processedByAdminAt" ∈ keysOf inc) ∨
        (("temporaryUserId" ∈ keysOf inc ∨
          "temporaryPassword" ∈ keysOf inc) ∧
         getF inc "status" = some (vs "accepted")))) ∧
      updateAllowed exC5 incC5 = true ∧
      isValidOnboardingUpdate exC5 incC5 ≠ some true := by
  refine ⟨fun inc => ?_, by decide, by decide⟩
  rw [isAdminUpdate, fsOr_eq_true, isStatusUpdate, isCredentialAssignment,
    fsAnd_eq_true, fsEq_some_right]
  simp only [Option.some.injEq]
  rw [hasAny_pair, hasAny_pair]

/-- Existing document for the C6 counterexample: an accepted submission. -/
def exC6 : Doc := [("status", vs "accepted"), ("email", vs "a@b.c")]

/-- Incoming write for the C6 counterexample: every field except
`temporaryPassword` satisfies its constraint, but the password has only 3
characters. -/
def incC6 : Doc :=
  [("name", vs "Jane"), ("email", vs "a@b.c"), ("status", vs "accepted"),
   ("temporaryPassword", vs "abc")]

/-- C6 (counterexample): all fields other than `temporaryPassword` satisfy
their constraints and the password is 3 characters long, yet the top-level
update rule approves the write (the field set contains `status`, so
`isAdminUpdate` fires), so the claimed rejection by the top-level rule is
false. -/
theorem c6_claim_false_at_input :
    getF exC6 "status" = some (vs "accepted") ∧
      hasAll incC6 ["name", "email", "status"] = true ∧
      getF incC6 "email" = getF exC6 "email" ∧
      getF incC6 "status" = getF exC6 "status" ∧
      hasOnly incC6 allowedFields = true ∧
      profileValid incC6 = some true ∧
      linkedinValid incC6 = some true ∧
      notificationValid incC6 = some true ∧
      getF incC6 "temporaryPassword" = some (vs "abc") ∧
      "abc".length < 6 ∧
      updateAllowed exC6 incC6 = true := by
  decide

/-- C6 (amended): for an accepted submission and an incoming update whose
fields other than `temporaryPassword` satisfy their constraints and which
sets `temporaryPassword` to a string `p`, the onboarding predicate
`isValidOnboardingUpdate` approves the write exactly when `p` has length at
least 6 (the top-level rule, by contrast, approves such writes either way,
because they contain `status` and hence qualify as admin updates). -/
theorem c6_password_length_gates_onboarding (ex inc : Doc) (p : String)
    (hacc : getF ex "status" = some (vs "accepted"))
    (hall : hasAll inc ["name", "email", "status"] = true)
    (hem : getF inc "email" = getF ex "email")
    (hst : getF inc "status" = getF ex "status")
    (honly : hasOnly inc allowedFields = true)
    (hprof : profileValid inc = some true)
    (hlink : linkedinValid inc = some true)
    (hnotif : notificationValid inc = some true)
    (hpw : getF inc "temporaryPassword" = some (vs p)) :
    isValidOnboardingUpdate ex inc = some true ↔ 6 ≤ p.length := by
  rw [isValidOnboardingUpdate_eq_true]
  constructor
  · rintro ⟨_, ⟨⟨hp, _⟩, _⟩, _⟩
    obtain ⟨s, hs, hlen⟩ := hp (mem_of_getF_eq_some hpw)
    rw [hpw] at hs
    have hsv := Option.some.inj hs
    have hsp : p = s := by
      simpa [vs] using hsv
    rwa [← hsp] at hlen
  · intro hlen
    rcases (hasAll_triple inc "name" "email" "status").mp hall with
      ⟨hn, he, hs⟩
    obtain ⟨ve, hve⟩ := getF_eq_some_of_mem he
    obtain ⟨vst, hvst⟩ := getF_eq_some_of_mem hs
    refine ⟨⟨⟨⟨⟨hacc, hall⟩, ⟨ve, hve, ?_⟩⟩, ⟨vst, hvst, ?_⟩⟩, honly⟩,
      ⟨⟨fun _ => ⟨p, hpw, hlen⟩, (profileValid_eq_true inc).mp hprof⟩,
        (linkedinValid_eq_true inc).mp hlink⟩,
      (notificationValid_eq_true inc).mp hnotif⟩
    · rw [← hem]
      exact hve
    · rw [← hst]
      exact hvst

/-- Incoming write for the C6 witness: as `incC6` but with a 6-character
password. -/
def incW6 : Doc :=
  [("name", vs "Jane"), ("email", vs "a@b.c"), ("status", vs "accepted"),
   ("temporaryPassword", vs "abcdef")]

/-- C6 (witness): the amended theorem applied at a concrete accepted
submission and a 6-character password. -/
theorem c6_witness :
    isValidOnboardingUpdate exC6 incW6 = some true ↔
      6 ≤ "abcdef".length :=
  c6_password_length_gates_onboarding exC6 incW6 "abcdef" (by decide)
    (by decide) (by decide) (by decide) (by decide) (by decide) (by decide)
    (by decide) (by decide)

/-- Existing document for the C7 counterexample: an accepted submission. -/
def exC7 : Doc := [("status", vs "accepted"), ("email", vs "a@b.c")]

/-- Incoming write for the C7 counterexample: every other field satisfies
its constraint and `linkedin` is `https://example.com`. -/
def incC7 : Doc :=
  [("name", vs "Jane"), ("email", vs "a@b.c"), ("status", vs "accepted"),
   ("linkedin", vs "https://example.com")]

/-- C7 (counterexample): with all other fields valid and `linkedin` set to
`https://example.com`, the top-level update rule approves the write (the
field set contains `status`, so `isAdminUpdate` fires), so the claimed
rejection by the top-level rule is false. -/
theorem c7_claim_false_at_input :
    getF incC7 "linkedin" = some (vs "https://example.com") ∧
      getF exC7 "status" = some (vs "accepted") ∧
      hasAll incC7 ["name", "email", "status"] = true ∧
      getF incC7 "email" = getF exC7 "email" ∧
      getF incC7 "status" = getF exC7 "status" ∧
      hasOnly incC7 allowedFields = true ∧
      passwordValid incC7 = some true ∧
      profileValid incC7 = some true ∧
      notificationValid incC7 = some true ∧
      updateAllowed exC7 incC7 = true := by
  decide

/-- C7 (amended): for an accepted submission and an incoming update whose
other fields satisfy their constraints, the onboarding predicate
`isValidOnboardingUpdate` rejects the write when `linkedin` is
`https://example.com`, and approves it when `linkedin` is
`https://www.linkedin.com/in/jdoe` or the empty string (the top-level rule,
by contrast, approves all three because such writes contain `status` and
hence qualify as admin updates). -/
theorem c7_linkedin_format_gates_onboarding (ex inc : Doc)
    (hacc : getF ex "status" = some (vs "accepted"))
    (hall : hasAll inc ["name", "email", "status"] = true)
    (hem : getF inc "email" = getF ex "email")
    (hst : getF inc "status" = getF ex "status")
    (honly : hasOnly inc allowedFields = true)
    (hpass : passwordValid inc = some true)
    (hprof : profileValid inc = some true)
    (hnotif : notificationValid inc = some true) :
    (getF inc "linkedin" = some (vs "https://example.com") →
      isValidOnboardingUpdate ex inc ≠ some true) ∧
    (getF inc "linkedin" = some (vs "https://www.linkedin.com/in/jdoe") →
      isValidOnboardingUpdate ex inc = some true) ∧
    (getF inc "linkedin" = some (vs "") →
      isValidOnboardingUpdate ex inc = some true) := by
  have core : ("linkedin" ∈ keysOf inc →
      getF inc "linkedin" = some (vs "") ∨
      ∃ s, getF inc "linkedin" = some (vs s) ∧
        (reMatches linkedinPat1 s = true ∨
         reMatches linkedinPat2 s = true)) →
      isValidOnboardingUpdate ex inc = some true := by
    intro hli
    rw [isValidOnboardingUpdate_eq_true]
    rcases (hasAll_triple inc "name" "email" "status").mp hall with
      ⟨hn, he, hs⟩
    obtain ⟨ve, hve⟩ := getF_eq_some_of_mem he
    obtain ⟨vst, hvst⟩ := getF_eq_some_of_mem hs
    refine ⟨⟨⟨⟨⟨hacc, hall⟩, ⟨ve, hve, ?_⟩⟩, ⟨vst, hvst, ?_⟩⟩, honly⟩,
      ⟨⟨(passwordValid_eq_true inc).mp hpass,
        (profileValid_eq_true inc).mp hprof⟩, hli⟩,
      (notificationValid_eq_true inc).mp hnotif⟩
    · rw [← hem]
      exact hve
    · rw [← hst]
      exact hvst
  refine ⟨?_, ?_, ?_⟩
  · intro hbad hc
    rw [isValidOnboardingUpdate_eq_true] at hc
    have hli := hc.2.1.2
    rcases hli (mem_of_getF_eq_some hbad) with hemp | ⟨s, hsv, hm⟩
    · exact absurd (Option.some.inj (hbad.symm.trans hemp)) (by decide)
    · have hsv2 := Option.some.inj (hbad.symm.trans hsv)
      have hss : "https://example.com" = s := by
        simpa [vs] using hsv2
      rw [← hss] at hm
      rcases hm with hm | hm
      · exact absurd hm (by decide)
      · exact absurd hm (by decide)
  · intro hgood
    exact core (fun _ =>
      Or.inr ⟨"https://www.linkedin.com/in/jdoe", hgood, Or.inl (by decide)⟩)
  · intro hempty
    exact core (fun _ => Or.inl hempty)

/-- Incoming write for the C7 witness: as `incC7` but with a conforming
linkedin URL. -/
def incW7 : Doc :=
  [("name", vs "Jane"), ("email", vs "a@b.c"), ("status", vs "accepted"),
   ("linkedin", vs "https://www.linkedin.com/in/jdoe")]

/-- C7 (witness): the amended theorem applied at a concrete accepted
submission and a write carrying a conforming linkedin URL. -/
theorem c7_witness :
    (getF incW7 "linkedin" = some (vs "https://example.com") →
      isValidOnboardingUpdate exC7 incW7 ≠ some true) ∧
    (getF incW7 "linkedin" = some (vs "https://www.linkedin.com/in/jdoe") →
      isValidOnboardingUpdate exC7 incW7 = some true) ∧
    (getF incW7 "linkedin" = some (vs "") →
      isValidOnboardingUpdate exC7 incW7 = some true) :=
  c7_linkedin_format_gates_onboarding exC7 incW7 (by decide) (by decide)
    (by decide) (by decide) (by decide) (by decide) (by decide) (by decide)

/-- Existing document for the C8 counterexample: an accepted submission. -/
def exC8 : Doc := [("status", vs "accepted"), ("email", vs "a@b.c")]

/-- Incoming write for the C8 counterexample: a field `hacked` outside the
allow-list, with all other constraints holding. -/
def incC8 : Doc :=
  [("name", vs "Jane"), ("email", vs "a@b.c"), ("status", vs "accepted"),
   ("hacked", vs "x")]

/-- C8 (counterexample): the incoming field set contains `hacked`, which is
outside the allow-list, and every other constraint holds, yet the top-level
update rule approves the write (the field set contains `status`, so
`isAdminUpdate` fires), so the claimed rejection by the top-level rule is
false. -/
theorem c8_claim_false_at_input :
    "hacked" ∈ keysOf incC8 ∧ "hacked" ∉ allowedFields ∧
      getF exC8 "status" = some (vs "accepted") ∧
      updateAllowed exC8 incC8 = true := by
  decide

/-- C8 (amended): an incoming update carrying any field outside the
allow-list of `isOnboardingFieldsOnly` is never approved as an onboarding
update: `isValidOnboardingUpdate` does not evaluate to true, whatever the
existing document and the other fields are (the top-level rule can still
approve such a write as an admin update). -/
theorem c8_foreign_field_rejected_by_onboarding (ex inc : Doc) (k : String)
    (hk : k ∈ keysOf inc) (hna : k ∉ allowedFields) :
    isValidOnboardingUpdate ex inc ≠ some true := by
  intro hc
  rw [isValidOnboardingUpdate_eq_true] at hc
  exact hna ((hasOnly_iff inc allowedFields).mp hc.1.2 k hk)

/-- C8 (witness): the amended theorem applied at the concrete accepted
submission and the write carrying the foreign field `hacked`. -/
theorem c8_witness : isValidOnboardingUpdate exC8 incC8 ≠ some true :=
  c8_foreign_field_rejected_by_onboarding exC8 incC8 "hacked" (by decide)
    (by decide)

/-- C9: `isValidOnboardingUpdate` evaluates to true only when the incoming
document contains all three of `name`, `email` and `status` (the
`keys().hasAll(['name', 'email', 'status'])` conjunct); omitting any of the
three makes the predicate evaluate to not-true whatever else holds. -/
theorem c9_core_fields_required (ex inc : Doc) :
    (isValidOnboardingUpdate ex inc = some true →
      "name" ∈ keysOf inc ∧ "email" ∈ keysOf inc ∧
        "status" ∈ keysOf inc) ∧
    (("name" ∉ keysOf inc ∨ "email" ∉ keysOf inc ∨
        "status" ∉ keysOf inc) →
      isValidOnboardingUpdate ex inc ≠ some true) := by
  constructor
  · intro h
    rw [isValidOnboardingUpdate_eq_true] at h
    exact (hasAll_triple inc "name" "email" "status").mp h.1.1.1.1.2
  · intro hmiss hc
    rw [isValidOnboardingUpdate_eq_true] at hc
    rcases (hasAll_triple inc "name" "email" "status").mp hc.1.1.1.1.2 with
      ⟨hn, he, hs⟩
    rcases hmiss with h | h | h
    · exact h hn
    · exact h he
    · exact h hs

/-- C10: when the top-level `contactSubmissions` update rule evaluates to
false, the stored document is unchanged; the modelled store applies either
the whole incoming document or nothing (`applyUpdate` is modelled from the
spec, the store being external to the repository). -/
theorem c10_denied_write_unchanged (ex inc : Doc)
    (h : updateAllowed ex inc = false) :
    applyUpdate ex inc = ex := by
  simp [applyUpdate, h]

/-- C10 (witness): the theorem applied at a concrete denied write (a bio
update against a pending submission). -/
theorem c10_witness :
    applyUpdate [("status", vs "pending")] [("bio", vs "hi")] =
      [("status", vs "pending")] :=
  c10_denied_write_unchanged [("status", vs "pending")] [("bio", vs "hi")]
    (by decide)
